import Mathlib

/-!
Verification of the conversation-threading and incremental-response core of a
matrix chat bot.  The definitions below are shallow embeddings of the
TypeScript source (`src/ChatClient.ts` and the command-handler module):
pure functions become Lean functions, the key-value conversation cache becomes
an explicit association list threaded through the operations, and the two
injected effects (fresh UUIDs and the upstream completion API) become explicit
parameters.  The model tokenizer is an arbitrary function `enc : String → Nat`,
mirroring the fact that the code treats the tiktoken encoder as a black box
that returns a token count for a string.
-/

/-! ## Data model (interfaces from ChatClient.ts) -/

/-- `ConversationMessage` from ChatClient.ts: `{id, parentMessageId, role, message, image?}`.
The optional image carries only a url.  A `parentMessageId` of `""` plays the
role of a JS falsy id (the `while (currentMessageId)` loop stops on it). -/
structure ConversationMessage where
  id : String
  parentMessageId : String
  role : String
  message : String
  image : Option String := none
deriving Repr, DecidableEq

/-- `Conversation` from ChatClient.ts: `{messages, createdAt}`. -/
structure Conversation where
  messages : List ConversationMessage
  createdAt : Nat
deriving Repr, DecidableEq

/-- `ConversationRef` from ChatClient.ts: both fields optional. -/
structure ConversationRef where
  conversationId : Option String := none
  tailMessageId : Option String := none
deriving Repr, DecidableEq

/-! ## History reconstruction: `getMessageList` (ChatClient.ts lines 546-560) -/

/-- `messages.find(m => m.id === currentMessageId)`. -/
def lookupMessage (messages : List ConversationMessage) (i : String) :
    Option ConversationMessage :=
  messages.find? (fun m => m.id == i)

/-- The body of the `while (currentMessageId)` loop of `getMessageList`,
made structurally recursive on an explicit fuel bound.  Each iteration looks
up the current id, prepends the found message (`orderedMessages.unshift`) and
moves to its `parentMessageId`; the loop stops when the id is falsy (`""`) or
the lookup fails.  The accumulator `acc` is the list built so far, already in
root-first order. -/
def getMessageListFuel (messages : List ConversationMessage) :
    Nat → String → List ConversationMessage → List ConversationMessage
  | 0, _, acc => acc
  | fuel + 1, currentMessageId, acc =>
    if currentMessageId = "" then acc
    else
      match lookupMessage messages currentMessageId with
      | none => acc
      | some m => getMessageListFuel messages fuel m.parentMessageId (m :: acc)

/-- `getMessageList(messages, tailMessageId)` from ChatClient.ts.  The fuel
`messages.length + 1` is enough for every terminating run of the JS loop,
because a terminating run never visits the same message twice
(proved in `chainTo_length_le` below). -/
def getMessageList (messages : List ConversationMessage) (tailMessageId : String) :
    List ConversationMessage :=
  getMessageListFuel messages (messages.length + 1) tailMessageId []

/-- The ancestor-chain relation described by the spec and implemented by the
JS `while` loop: `ChainTo messages i l` holds when starting from id `i` the
process "look up the id, prepend the message, move to its parent" terminates
and produces exactly the root-first list `l`. -/
inductive ChainTo (messages : List ConversationMessage) : String → List ConversationMessage → Prop
  | stopEmpty : ChainTo messages "" []
  | stopMissing (i : String) : lookupMessage messages i = none → ChainTo messages i []
  | step (i : String) (m : ConversationMessage) (l : List ConversationMessage) :
      i ≠ "" → lookupMessage messages i = some m →
      ChainTo messages m.parentMessageId l → ChainTo messages i (l ++ [m])

theorem lookupMessage_id {messages : List ConversationMessage} {i : String}
    {m : ConversationMessage} (h : lookupMessage messages i = some m) : m.id = i := by
  have := List.find?_some h
  simpa using this

theorem lookupMessage_mem {messages : List ConversationMessage} {i : String}
    {m : ConversationMessage} (h : lookupMessage messages i = some m) : m ∈ messages :=
  List.mem_of_find?_eq_some h

/-- The loop result does not depend on how the accumulator was seeded. -/
theorem getMessageListFuel_acc (messages : List ConversationMessage) :
    ∀ (fuel : Nat) (i : String) (acc : List ConversationMessage),
      getMessageListFuel messages fuel i acc = getMessageListFuel messages fuel i [] ++ acc := by
  intro fuel
  induction fuel with
  | zero => intro i acc; simp [getMessageListFuel]
  | succ n ih =>
    intro i acc
    by_cases hi : i = ""
    · simp [getMessageListFuel, hi]
    · cases hm : lookupMessage messages i with
      | none => simp [getMessageListFuel, hi, hm]
      | some m =>
        simp only [getMessageListFuel, hi, if_neg hi, hm]
        rw [ih m.parentMessageId (m :: acc), ih m.parentMessageId [m]]
        simp

/-- Determinism of the chain relation. -/
theorem chainTo_det {messages : List ConversationMessage} {i : String}
    {l l' : List ConversationMessage}
    (h : ChainTo messages i l) (h' : ChainTo messages i l') : l = l' := by
  induction h generalizing l' with
  | stopEmpty =>
    cases h' with
    | stopEmpty => rfl
    | stopMissing _ _ => rfl
    | step _ _ _ hne _ _ => exact absurd rfl hne
  | stopMissing j hnone =>
    cases h' with
    | stopEmpty => rfl
    | stopMissing _ _ => rfl
    | step _ _ _ _ hsome _ => rw [hnone] at hsome; exact Option.noConfusion hsome
  | step j m l hne hsome _ ih =>
    cases h' with
    | stopEmpty => exact absurd rfl hne
    | stopMissing _ hnone => rw [hnone] at hsome; exact Option.noConfusion hsome
    | step _ m' l2 _ hsome' hchain' =>
      rw [hsome] at hsome'
      cases hsome'
      rw [ih hchain']

/-- Every suffix-closed decomposition of a chain is itself a chain: if the
chain from `i` is `l1 ++ m :: l2`, then the chain from `m.id` is `l1 ++ [m]`. -/
theorem chainTo_decomp {messages : List ConversationMessage} {i : String}
    {L : List ConversationMessage} (h : ChainTo messages i L) :
    ∀ (l1 l2 : List ConversationMessage) (m : ConversationMessage),
      L = l1 ++ m :: l2 → ChainTo messages m.id (l1 ++ [m]) := by
  induction h with
  | stopEmpty =>
    intro l1 l2 m hL
    exact absurd hL.symm (List.append_ne_nil_of_right_ne_nil l1 (by simp))
  | stopMissing j hnone =>
    intro l1 l2 m hL
    exact absurd hL.symm (List.append_ne_nil_of_right_ne_nil l1 (by simp))
  | step j mt l hne hsome hchain ih =>
    intro l1 l2 m hL
    rcases l2.eq_nil_or_concat with rfl | ⟨l2x, x, rfl⟩
    · have hlen : l.length = l1.length := by
        have := congrArg List.length hL
        simpa using this
      have hmt : l = l1 ∧ [mt] = [m] := by
        apply List.append_inj hL hlen
      rcases hmt with ⟨rfl, hm⟩
      have hm2 : mt = m := by simpa using hm
      subst hm2
      have hid : mt.id = j := lookupMessage_id hsome
      rw [hid]
      exact ChainTo.step j mt l hne hsome hchain
    · have hL2 : l ++ [mt] = (l1 ++ m :: l2x) ++ [x] := by
        simpa [List.concat_eq_append] using hL
      have hx : l = l1 ++ m :: l2x ∧ [mt] = [x] := by
        apply List.append_inj hL2
        have := congrArg List.length hL2
        simp at this ⊢
        omega
      exact ih l1 l2x m hx.1

/-- A terminating chain never visits the same message twice and stays inside
the message set. -/
theorem chainTo_nodup_sub {messages : List ConversationMessage} {i : String}
    {l : List ConversationMessage} (h : ChainTo messages i l) :
    l.Nodup ∧ l ⊆ messages := by
  induction h with
  | stopEmpty => simp
  | stopMissing j hnone => simp
  | step j m l hne hsome hchain ih =>
    rcases ih with ⟨hnd, hsub⟩
    constructor
    · rw [List.nodup_append]
      refine ⟨hnd, by simp, ?_⟩
      simp only [List.disjoint_singleton]
      intro hmem
      rcases List.append_of_mem hmem with ⟨l1, l2, rfl⟩
      have hid : m.id = j := lookupMessage_id hsome
      have hsub1 : ChainTo messages m.id (l1 ++ [m]) :=
        chainTo_decomp (ChainTo.step j m _ hne hsome hchain) l1 (l2 ++ [m]) m (by simp)
      have hsub2 : ChainTo messages m.id ((l1 ++ m :: l2) ++ [m]) := by
        rw [hid]; exact ChainTo.step j m _ hne hsome hchain
      have heq := chainTo_det hsub1 hsub2
      have := congrArg List.length heq
      simp at this
    · intro x hx
      rcases List.mem_append.1 hx with hx | hx
      · exact hsub hx
      · simp at hx
        subst hx
        exact lookupMessage_mem hsome

/-- A terminating chain is no longer than the message list. -/
theorem chainTo_length_le {messages : List ConversationMessage} {i : String}
    {l : List ConversationMessage} (h : ChainTo messages i l) :
    l.length ≤ messages.length := by
  rcases chainTo_nodup_sub h with ⟨hnd, hsub⟩
  exact (hnd.subperm hsub).length_le

/-- With enough fuel the loop computes exactly the chain. -/
theorem getMessageListFuel_of_chainTo {messages : List ConversationMessage} {i : String}
    {l : List ConversationMessage} (h : ChainTo messages i l) :
    ∀ fuel : Nat, l.length < fuel →
      ∀ acc : List ConversationMessage, getMessageListFuel messages fuel i acc = l ++ acc := by
  induction h with
  | stopEmpty =>
    intro fuel hf acc
    cases fuel with
    | zero => omega
    | succ n => simp [getMessageListFuel]
  | stopMissing j hnone =>
    intro fuel hf acc
    cases fuel with
    | zero => omega
    | succ n =>
      by_cases hj : j = ""
      · simp [getMessageListFuel, hj]
      · simp [getMessageListFuel, hj, hnone]
  | step j m l hne hsome hchain ih =>
    intro fuel hf acc
    cases fuel with
    | zero => omega
    | succ n =>
      simp only [getMessageListFuel, if_neg hne, hsome]
      rw [ih n (by simp at hf; omega) (m :: acc)]
      simp

/-- Claim C1: `getMessageList` reconstructs the ancestor chain of the tail
message in root-first order: whenever the process "look up the current id,
prepend the message, move to its parent id, stop when no id is set or the
lookup fails" terminates with chain `l` (relation `ChainTo`), the function
returns exactly `l` — silent truncation at an unresolvable id is part of
`ChainTo` and never produces an error; and for a tail id absent from the set
the result is the empty sequence. -/
theorem getMessageList_reconstructs_ancestor_chain
    (messages : List ConversationMessage) (tailMessageId : String)
    (l : List ConversationMessage) (h : ChainTo messages tailMessageId l) :
    getMessageList messages tailMessageId = l ∧
      (lookupMessage messages tailMessageId = none →
        getMessageList messages tailMessageId = []) := by
  constructor
  · have hlen := chainTo_length_le h
    have := getMessageListFuel_of_chainTo h (messages.length + 1) (by omega) []
    simpa [getMessageList] using this
  · intro hnone
    have hnil : ChainTo messages tailMessageId [] := ChainTo.stopMissing _ hnone
    have hlen := chainTo_length_le hnil
    have := getMessageListFuel_of_chainTo hnil (messages.length + 1) (by omega) []
    simpa [getMessageList] using this

/-- Concrete three-message conversation used by the witnesses (the scenario of
the testable-properties section of the design). -/
def sampleMessages : List ConversationMessage :=
  [⟨"1", "", "user", "hi", none⟩,
   ⟨"2", "1", "assistant", "hello", none⟩,
   ⟨"3", "2", "user", "bye", none⟩]

theorem sampleMessages_chainTo :
    ChainTo sampleMessages "3"
      [⟨"1", "", "user", "hi", none⟩,
       ⟨"2", "1", "assistant", "hello", none⟩,
       ⟨"3", "2", "user", "bye", none⟩] :=
  ChainTo.step "3" ⟨"3", "2", "user", "bye", none⟩ _ (by decide) (by rfl)
    (ChainTo.step "2" ⟨"2", "1", "assistant", "hello", none⟩ _ (by decide) (by rfl)
      (ChainTo.step "1" ⟨"1", "", "user", "hi", none⟩ _ (by decide) (by rfl)
        ChainTo.stopEmpty))

/-- Witness for C1 at the concrete conversation: the chain for tail id `"3"`
is the full root-first path, and an absent tail id `"9"` yields `[]`. -/
theorem getMessageList_reconstructs_ancestor_chain_witness :
    getMessageList sampleMessages "3" =
      [⟨"1", "", "user", "hi", none⟩,
       ⟨"2", "1", "assistant", "hello", none⟩,
       ⟨"3", "2", "user", "bye", none⟩] ∧
    getMessageList sampleMessages "9" = [] := by
  constructor
  · exact (getMessageList_reconstructs_ancestor_chain sampleMessages "3" _
      sampleMessages_chainTo).1
  · exact (getMessageList_reconstructs_ancestor_chain sampleMessages "9" []
      (ChainTo.stopMissing _ (by rfl))).2 (by rfl)

/-! ## Upstream request messages and `toOaiHistory` (ChatClient.ts lines 482-537) -/

/-- `ChatCompletionContentPart`: a text part or an image-url part (with detail). -/
inductive OaiPart
  | text (t : String)
  | imageUrl (url : String) (detail : String)
deriving Repr, DecidableEq

/-- The content of a `ChatCompletionMessageParam`: either a plain string or a
list of parts. -/
inductive OaiContent
  | str (s : String)
  | parts (ps : List OaiPart)
deriving Repr, DecidableEq

/-- A `ChatCompletionMessageParam`: role plus content. -/
structure OaiMessage where
  role : String
  content : OaiContent
deriving Repr, DecidableEq

/-- `normalizeRole` from `toOaiHistory`: legacy role names conversion. -/
def normalizeRole (role : String) : String :=
  if role = "User" then "user"
  else if role = "ChatGPT" then "assistant"
  else role

/-- The coercion of an existing target content to a part list done before a
merge: `if (!target.content) target.content = []; else if (typeof ... ===
'string') target.content = [{type:"text", text}]` — an empty string is falsy
in JS and becomes the empty part list. -/
def contentAsParts : OaiContent → List OaiPart
  | .str s => if s = "" then [] else [.text s]
  | .parts ps => ps

/-- The part pushed for one conversation message: its image (detail `auto`)
when present, otherwise its text. -/
def messagePart (m : ConversationMessage) : OaiPart :=
  match m.image with
  | some url => .imageUrl url "auto"
  | none => .text m.message

/-- One iteration of the `for (const message of messages)` loop of
`toOaiHistory`: a user-role message merges into a trailing user turn
(`history.at(-1)`) when there is one, otherwise starts a new part-list user
turn; any other role is appended as a plain string message. -/
def toOaiStep (history : List OaiMessage) (m : ConversationMessage) : List OaiMessage :=
  let role := normalizeRole m.role
  if role = "user" then
    match history.getLast? with
    | some last =>
      if last.role = "user" then
        history.dropLast ++
          [{ role := "user", content := .parts (contentAsParts last.content ++ [messagePart m]) }]
      else history ++ [{ role := role, content := .parts [messagePart m] }]
    | none => history ++ [{ role := role, content := .parts [messagePart m] }]
  else history ++ [{ role := role, content := .str m.message }]

/-- `toOaiHistory(messages)` from ChatClient.ts. -/
def toOaiHistory (messages : List ConversationMessage) : List OaiMessage :=
  messages.foldl toOaiStep []

/-! ## Token-budget trimmer: `constraintInput` (ChatClient.ts lines 438-479) -/

/-- The data carried by the `Prompt is too long.` error message: the budget
(`maxInputTokens`) and the offending token count. -/
structure PromptTooLong where
  maxTokens : Nat
  promptTokens : Nat
deriving Repr, DecidableEq

/-- Token cost of one content part: text via the encoder, any other part a
fixed 765 (`todo: count images precisely`). -/
def partTokens (enc : String → Nat) : OaiPart → Nat
  | .text t => enc t
  | .imageUrl _ _ => 765

/-- Token cost of one request message, exactly as counted by
`constraintInput`: falsy content (the empty string) is 0 tokens without
consulting the encoder; string content goes through the encoder; a part list
sums its parts. -/
def msgTokens (enc : String → Nat) (m : OaiMessage) : Nat :=
  match m.content with
  | .str s => if s = "" then 0 else enc s
  | .parts ps => (ps.map (partTokens enc)).sum

/-- The `for (let i = fullHistory.length - 1; i >= 0; --i)` loop of
`constraintInput`, expressed on the reversed (newest-first) history.
`acc` is the retained-messages list built by `result.unshift(message)`.
`currentTokens` is declared as a running total, but the source never assigns
to it after `let currentTokens = 0` — so the recursion passes it through
unchanged, exactly as the loop body does.  Consequences, proved below:
started at `currentTokens = 0` the loop throws at the first message
(newest-first) whose own cost exceeds the budget and otherwise keeps every
message, and the `break` branch (the `.ok acc` under the overflow test) is
unreachable. -/
def constraintLoop (enc : String → Nat) (budget : Nat) :
    List OaiMessage → Nat → List OaiMessage → Except PromptTooLong (List OaiMessage)
  | [], _, acc => .ok acc
  | m :: rest, currentTokens, acc =>
    let tokens := msgTokens enc m
    if budget < currentTokens + tokens then
      if currentTokens = 0 then .error ⟨budget, currentTokens + tokens⟩
      else .ok acc
    else constraintLoop enc budget rest currentTokens (m :: acc)

/-- `constraintInput(tokenEncoding, fullHistory, maxInputTokens)` from
ChatClient.ts: absent budget returns the input unchanged; otherwise the
newest-first walk above, started with `currentTokens = 0`. -/
def constraintInput (enc : String → Nat) (fullHistory : List OaiMessage)
    (maxInputTokens : Option Nat) : Except PromptTooLong (List OaiMessage) :=
  match maxInputTokens with
  | none => .ok fullHistory
  | some budget => constraintLoop enc budget fullHistory.reverse 0 []

/-- Suffix relation on lists, spelled out. -/
def ListSuffix {α : Type} (l1 l2 : List α) : Prop := ∃ t, t ++ l1 = l2

/-- Because the source never adds to `currentTokens`, a successful run of the
trimming loop keeps every message: the result is the whole re-reversed input
pushed onto the accumulator. -/
theorem constraintLoop_zero_ok (enc : String → Nat) (b : Nat) :
    ∀ (rev acc res : List OaiMessage),
      constraintLoop enc b rev 0 acc = .ok res → res = rev.reverse ++ acc := by
  intro rev
  induction rev with
  | nil =>
    intro acc res h
    simp only [constraintLoop, Except.ok.injEq] at h
    simp [h]
  | cons m rest ih =>
    intro acc res h
    by_cases hover : b < 0 + msgTokens enc m
    · have hov2 : b < msgTokens enc m := by omega
      simp [constraintLoop, hov2] at h
    · simp only [constraintLoop, if_neg hover] at h
      have := ih (m :: acc) res h
      simp [this, List.reverse_cons, List.append_assoc]

/-- Claim C2: trimmer monotonicity.  For budgets `b1 < b2` under which the
trimmer succeeds, every message retained under `b1` is also retained under
`b2`, and both results are contiguous suffixes of the history in original
order.  In this program the property holds degenerately: since the source
never updates `currentTokens`, a successful trim returns the entire history —
recorded explicitly by the first two conjuncts. -/
theorem constraintInput_monotone_suffix (enc : String → Nat)
    (fullHistory r1 r2 : List OaiMessage) (b1 b2 : Nat) (_hb : b1 < b2)
    (h1 : constraintInput enc fullHistory (some b1) = .ok r1)
    (h2 : constraintInput enc fullHistory (some b2) = .ok r2) :
    r1 = fullHistory ∧ r2 = fullHistory ∧
      ListSuffix r1 r2 ∧ ListSuffix r1 fullHistory ∧ ListSuffix r2 fullHistory := by
  simp only [constraintInput] at h1 h2
  have e1 := constraintLoop_zero_ok enc b1 fullHistory.reverse [] r1 h1
  have e2 := constraintLoop_zero_ok enc b2 fullHistory.reverse [] r2 h2
  simp only [List.append_nil, List.reverse_reverse] at e1 e2
  subst e1
  subst e2
  exact ⟨rfl, rfl, ⟨[], rfl⟩, ⟨[], rfl⟩, ⟨[], rfl⟩⟩

/-- A concrete executable token encoder for witnesses: one token per
character. -/
def lenEnc (s : String) : Nat := s.length

/-- Witness for C2 at a concrete history whose messages each fit budgets
1 < 2: both trims succeed (returning the full history) and the suffix
relations hold. -/
theorem constraintInput_monotone_suffix_witness :
    ([(⟨"user", OaiContent.str "a"⟩ : OaiMessage), ⟨"assistant", OaiContent.str "b"⟩] =
        [⟨"user", OaiContent.str "a"⟩, ⟨"assistant", OaiContent.str "b"⟩]) ∧
    ([(⟨"user", OaiContent.str "a"⟩ : OaiMessage), ⟨"assistant", OaiContent.str "b"⟩] =
        [⟨"user", OaiContent.str "a"⟩, ⟨"assistant", OaiContent.str "b"⟩]) ∧
    ListSuffix [(⟨"user", OaiContent.str "a"⟩ : OaiMessage), ⟨"assistant", OaiContent.str "b"⟩]
        [⟨"user", OaiContent.str "a"⟩, ⟨"assistant", OaiContent.str "b"⟩] ∧
    ListSuffix [(⟨"user", OaiContent.str "a"⟩ : OaiMessage), ⟨"assistant", OaiContent.str "b"⟩]
        [⟨"user", OaiContent.str "a"⟩, ⟨"assistant", OaiContent.str "b"⟩] ∧
    ListSuffix [(⟨"user", OaiContent.str "a"⟩ : OaiMessage), ⟨"assistant", OaiContent.str "b"⟩]
        [⟨"user", OaiContent.str "a"⟩, ⟨"assistant", OaiContent.str "b"⟩] :=
  constraintInput_monotone_suffix lenEnc
    [⟨"user", OaiContent.str "a"⟩, ⟨"assistant", OaiContent.str "b"⟩]
    [⟨"user", OaiContent.str "a"⟩, ⟨"assistant", OaiContent.str "b"⟩]
    [⟨"user", OaiContent.str "a"⟩, ⟨"assistant", OaiContent.str "b"⟩]
    1 2 (by decide) (by rfl) (by rfl)

/-- Claim C3, code-bug evidence.  The spec describes a newest-first greedy
walk that accumulates a running token total, and the code plainly intends
one: `currentTokens` is initialized to 0, compared (`currentTokens + tokens >
maxInputTokens`, `currentTokens === 0`), reported inside the error message,
and the loop carries a `break` for the accumulated-overflow case — yet no
statement ever adds to `currentTokens`, so the total stays 0 and the `break`
is unreachable.  At the claim boundary the code therefore diverges from the
claimed (intended) behavior, witnessed here with the one-token-per-character
encoder and budget 2: for `[x (1 token), ab (2 tokens)]` the newest message
costs exactly the budget and the next-older message would overflow the
running total, so the claim requires exactly `[ab]`, but the code keeps the
entire history; and for `[abc (3 tokens), ab (2 tokens)]` the claim again
requires `[ab]`, but the code throws PromptTooLong (2, 3), since a single
over-budget message is fatal no matter how much was already accepted. -/
theorem constraintInput_never_accumulates :
    constraintInput lenEnc
        [⟨"assistant", OaiContent.str "x"⟩, ⟨"user", OaiContent.str "ab"⟩] (some 2) =
      .ok [⟨"assistant", OaiContent.str "x"⟩, ⟨"user", OaiContent.str "ab"⟩] ∧
    constraintInput lenEnc
        [⟨"assistant", OaiContent.str "abc"⟩, ⟨"user", OaiContent.str "ab"⟩] (some 2) =
      .error ⟨2, 3⟩ :=
  ⟨rfl, rfl⟩

/-! ## Streaming: `sendMessageStreamed` buffer loop (ChatClient.ts lines 373-431) -/

/-- One `choices[0]` element of a streamed completion: an optional delta role,
an optional delta text and the finish reason (`null` until the terminal
fragment). -/
structure OaiStreamChunk where
  role : Option String
  content : Option String
  finish_reason : Option String
deriving Repr, DecidableEq

/-- `ChatClientResult` from ChatClient.ts; `isLastChunk` is only set by the
streaming path. -/
structure ChatClientResult where
  response : String
  conversationId : String
  messageId : String
  isLastChunk : Option Bool := none
deriving Repr, DecidableEq

/-- `Number.MAX_SAFE_INTEGER`. -/
def MAX_SAFE_INTEGER : Nat := 2 ^ 53 - 1

/-- `Math.round(maxBufferLength * 1.618)`, modelled over the rationals:
round half up of `1.618 · n` is `⌊(1618 n + 500) / 1000⌋`. -/
def growThreshold (n : Nat) : Nat := (1618 * n + 500) / 1000

/-- `this.options.firstChunkSize || 512` (0 and absent are both falsy). -/
def firstChunkSizeOr512 (firstChunkSize : Option Nat) : Nat :=
  match firstChunkSize with
  | some n => if n = 0 then 512 else n
  | none => 512

/-- The mutable state of the streaming loop: the current flush threshold
(`maxBufferLength`), the unflushed buffer, the reply role and accumulated
reply text of the in-progress assistant message, and the chunks yielded so
far. -/
structure StreamState where
  maxBufferLength : Nat
  buffer : String
  replyRole : String
  replyText : String
  yields : List ChatClientResult
deriving Repr, DecidableEq

/-- The state before the `for await` loop:
`maxBufferLength = Math.max(128, firstChunkSize || 512)`, empty buffer, a
fresh assistant reply message with empty text, nothing yielded. -/
def streamInit (firstChunkSize : Option Nat) : StreamState :=
  { maxBufferLength := max 128 (firstChunkSizeOr512 firstChunkSize),
    buffer := "", replyRole := "assistant", replyText := "", yields := [] }

/-- The flush condition of a loop iteration:
`(buffer.length >= maxBufferLength) || isLastChunk`, evaluated on the buffer
after appending the delta text. -/
def flushNow (st : StreamState) (chunk : OaiStreamChunk) : Prop :=
  st.maxBufferLength ≤ (st.buffer ++ chunk.content.getD "").length ∨
    chunk.finish_reason.isSome = true

instance (st : StreamState) (chunk : OaiStreamChunk) : Decidable (flushNow st chunk) := by
  unfold flushNow; infer_instance

/-- One iteration of the `for await (const oaiCompletion of oaiCompletionStream)`
loop: append the delta text to the buffer; when the buffer reaches the
threshold or this is the terminal fragment, move the buffer into the reply
message, multiply the threshold by the golden ratio (or pin it to
`MAX_SAFE_INTEGER` when this is a new conversation and the
use-two-chunks-for-first-reply option is set) and yield the accumulated
response. -/
def streamStep (isNewConversation useTwoChunksForFirstReply : Bool)
    (conversationId messageId : String) (st : StreamState) (chunk : OaiStreamChunk) :
    StreamState :=
  let replyRole :=
    match chunk.role with
    | some r => if r = "" then st.replyRole else r
    | none => st.replyRole
  let isLastChunk := chunk.finish_reason.isSome
  let buffer := st.buffer ++ chunk.content.getD ""
  if flushNow st chunk then
    let replyText := st.replyText ++ buffer
    let newMax :=
      if (isNewConversation && useTwoChunksForFirstReply) = true then MAX_SAFE_INTEGER
      else growThreshold st.maxBufferLength
    { maxBufferLength := newMax, buffer := "", replyRole := replyRole,
      replyText := replyText,
      yields := st.yields ++
        [{ response := replyText, conversationId := conversationId,
           messageId := messageId, isLastChunk := some isLastChunk }] }
  else
    { st with buffer := buffer, replyRole := replyRole }

/-- The whole streaming loop over a finite upstream chunk sequence. -/
def runStream (isNewConversation useTwoChunksForFirstReply : Bool)
    (conversationId messageId : String) (firstChunkSize : Option Nat)
    (chunks : List OaiStreamChunk) : StreamState :=
  chunks.foldl (streamStep isNewConversation useTwoChunksForFirstReply
    conversationId messageId) (streamInit firstChunkSize)

/-- Concatenation of all delta text fragments of a stream. -/
def concatContents : List OaiStreamChunk → String
  | [] => ""
  | c :: rest => c.content.getD "" ++ concatContents rest

theorem concatContents_append (l1 l2 : List OaiStreamChunk) :
    concatContents (l1 ++ l2) = concatContents l1 ++ concatContents l2 := by
  induction l1 with
  | nil => simp [concatContents]
  | cons c rest ih => simp [concatContents, ih, String.append_assoc]

/-- The golden-ratio growth never decreases the threshold. -/
theorem growThreshold_ge (n : Nat) : n ≤ growThreshold n := by
  have h1 : n = 1000 * n / 1000 := by
    rw [Nat.mul_div_cancel_left n (by norm_num)]
  rw [growThreshold]
  calc n = 1000 * n / 1000 := h1
    _ ≤ (1618 * n + 500) / 1000 := Nat.div_le_div_right (by omega)

/-- Outside two-chunks mode, a loop iteration either flushes nothing and
keeps the threshold, or yields exactly one chunk and multiplies the threshold
by the golden ratio. -/
theorem streamStep_normal_cases (isNew useTwo : Bool) (cid mid : String)
    (st : StreamState) (c : OaiStreamChunk)
    (hcond : ¬(isNew = true ∧ useTwo = true)) :
    ((streamStep isNew useTwo cid mid st c).yields = st.yields ∧
      (streamStep isNew useTwo cid mid st c).maxBufferLength = st.maxBufferLength) ∨
    ((streamStep isNew useTwo cid mid st c).yields.length = st.yields.length + 1 ∧
      (streamStep isNew useTwo cid mid st c).maxBufferLength =
        growThreshold st.maxBufferLength) := by
  have hb : (isNew && useTwo) = false := by
    cases isNew <;> cases useTwo <;> simp_all
  by_cases hf : flushNow st c
  · right
    simp [streamStep, hf, hb]
  · left
    simp [streamStep, hf]

/-- A loop iteration yields at most one chunk. -/
theorem streamStep_yields_le (isNew useTwo : Bool) (cid mid : String)
    (st : StreamState) (c : OaiStreamChunk) :
    (streamStep isNew useTwo cid mid st c).yields.length ≤ st.yields.length + 1 := by
  by_cases hf : flushNow st c
  · simp [streamStep, hf]
  · simp [streamStep, hf]

/-- Outside two-chunks mode the threshold never decreases along the loop. -/
theorem foldl_maxBufferLength_mono (isNew useTwo : Bool) (cid mid : String)
    (hcond : ¬(isNew = true ∧ useTwo = true)) :
    ∀ (l : List OaiStreamChunk) (st : StreamState),
      st.maxBufferLength ≤
        (l.foldl (streamStep isNew useTwo cid mid) st).maxBufferLength := by
  intro l
  induction l with
  | nil => intro st; simp
  | cons c rest ih =>
    intro st
    refine le_trans ?_ (ih (streamStep isNew useTwo cid mid st c))
    rcases streamStep_normal_cases isNew useTwo cid mid st c hcond with ⟨_, hm⟩ | ⟨_, hm⟩
    · rw [hm]
    · rw [hm]; exact growThreshold_ge _

/-- Accounting invariant: reply text plus unflushed buffer is always the
initial text plus every delta received so far. -/
theorem foldl_replyText_buffer (isNew useTwo : Bool) (cid mid : String) :
    ∀ (l : List OaiStreamChunk) (st : StreamState),
      (l.foldl (streamStep isNew useTwo cid mid) st).replyText ++
          (l.foldl (streamStep isNew useTwo cid mid) st).buffer =
        st.replyText ++ st.buffer ++ concatContents l := by
  intro l
  induction l with
  | nil => intro st; simp [concatContents]
  | cons c rest ih =>
    intro st
    rw [List.foldl_cons, ih]
    by_cases hf : flushNow st c
    · simp [streamStep, hf, concatContents, String.append_assoc, String.append_empty]
    · simp [streamStep, hf, concatContents, String.append_assoc]

/-- In two-chunks mode, as long as no terminal fragment arrives and the total
delta text stays below `MAX_SAFE_INTEGER`, at most one chunk is ever yielded,
and once one has been yielded the threshold is pinned to `MAX_SAFE_INTEGER`. -/
theorem foldl_two_chunks_body (cid mid : String) (total : Nat) :
    ∀ (l : List OaiStreamChunk) (st : StreamState),
      (∀ x ∈ l, x.finish_reason = none) →
      st.yields.length ≤ 1 →
      (st.yields.length = 1 → st.maxBufferLength = MAX_SAFE_INTEGER) →
      st.buffer.length + (concatContents l).length ≤ total →
      total < MAX_SAFE_INTEGER →
      (l.foldl (streamStep true true cid mid) st).yields.length ≤ 1 ∧
        ((l.foldl (streamStep true true cid mid) st).yields.length = 1 →
          (l.foldl (streamStep true true cid mid) st).maxBufferLength =
            MAX_SAFE_INTEGER) := by
  intro l
  induction l with
  | nil => intro st _ h1 h2 _ _; exact ⟨h1, h2⟩
  | cons c rest ih =>
    intro st hfin h1 h2 hlen htot
    rw [List.foldl_cons]
    have hc : c.finish_reason = none := hfin c (by simp)
    have hlen2 : st.buffer.length + (c.content.getD "").length +
        (concatContents rest).length ≤ total := by
      have := String.length_append (c.content.getD "") (concatContents rest)
      simp only [concatContents] at hlen
      omega
    by_cases hf : flushNow st c
    · have hyz : st.yields.length = 0 := by
        by_contra hnz
        have h1x : st.yields.length = 1 := by omega
        have hmax := h2 h1x
        rcases hf with hf | hf
        · rw [hmax, String.length_append] at hf
          omega
        · rw [hc] at hf
          simp at hf
      apply ih
      · intro x hx; exact hfin x (by simp [hx])
      · simp [streamStep, hf, hyz]
      · intro _
        simp [streamStep, hf]
      · simp [streamStep, hf]
        omega
      · exact htot
    · apply ih
      · intro x hx; exact hfin x (by simp [hx])
      · simpa [streamStep, hf] using h1
      · intro hy
        have := h2 (by simpa [streamStep, hf] using hy)
        simpa [streamStep, hf] using this
      · simp only [streamStep, hf, if_neg hf]
        simpa [String.length_append] using hlen2
      · exact htot

/-- Counterexample to claim C4 as stated: with a new conversation and the
use-two-chunks-for-first-reply option set, a short reply whose single delta
carries the terminal finish reason yields exactly one chunk, not two — so
"exactly two chunks are yielded for that turn regardless of the reply's
length" is false. -/
theorem runStream_two_chunks_short_reply_single_yield :
    (runStream true true "c" "m" none
        [⟨some "assistant", some "hi", some "stop"⟩]).yields.length = 1 := by
  decide

/-- Claim C4 (amended): the flush threshold starts at
`max(128, firstChunkSize or 512)`; outside two-chunks mode every flush
multiplies it by the golden ratio (rounded) and it never decreases along the
run; in two-chunks mode any flush pins it to `MAX_SAFE_INTEGER`, so a stream
with a single terminal fragment yields *at most* two chunks (short replies
can yield a single chunk, per `runStream_two_chunks_short_reply_single_yield`,
so "exactly two regardless of length" is weakened to "at most two"). -/
theorem sendMessageStreamed_threshold_growth_amended
    (isNew useTwo : Bool) (cid mid : String) (fcs : Option Nat)
    (st : StreamState) (c : OaiStreamChunk)
    (pre suf body : List OaiStreamChunk) (last : OaiStreamChunk) :
    (streamInit fcs).maxBufferLength = max 128 (firstChunkSizeOr512 fcs) ∧
    (¬(isNew = true ∧ useTwo = true) →
      (((streamStep isNew useTwo cid mid st c).yields = st.yields ∧
          (streamStep isNew useTwo cid mid st c).maxBufferLength =
            st.maxBufferLength) ∨
        ((streamStep isNew useTwo cid mid st c).yields.length = st.yields.length + 1 ∧
          (streamStep isNew useTwo cid mid st c).maxBufferLength =
            growThreshold st.maxBufferLength))) ∧
    (¬(isNew = true ∧ useTwo = true) →
      (runStream isNew useTwo cid mid fcs pre).maxBufferLength ≤
        (runStream isNew useTwo cid mid fcs (pre ++ suf)).maxBufferLength) ∧
    (isNew = true → useTwo = true → flushNow st c →
      (streamStep isNew useTwo cid mid st c).maxBufferLength = MAX_SAFE_INTEGER) ∧
    (isNew = true → useTwo = true →
      (∀ x ∈ body, x.finish_reason = none) →
      last.finish_reason.isSome = true →
      (concatContents (body ++ [last])).length < MAX_SAFE_INTEGER →
      (runStream isNew useTwo cid mid fcs (body ++ [last])).yields.length ≤ 2) := by
  refine ⟨rfl, ?_, ?_, ?_, ?_⟩
  · intro hcond
    exact streamStep_normal_cases isNew useTwo cid mid st c hcond
  · intro hcond
    rw [runStream, runStream, List.foldl_append]
    exact foldl_maxBufferLength_mono isNew useTwo cid mid hcond suf _
  · intro h1 h2 hf
    subst h1; subst h2
    simp [streamStep, hf]
  · intro h1 h2 hbody hlast htot
    subst h1; subst h2
    have hlen0 : (streamInit fcs).buffer.length + (concatContents body).length ≤
        (concatContents (body ++ [last])).length := by
      simp [streamInit, concatContents_append, String.length_append]
    have hb := foldl_two_chunks_body cid mid (concatContents (body ++ [last])).length
      body (streamInit fcs) hbody (by simp [streamInit]) (by simp [streamInit])
      hlen0 htot
    rw [runStream, List.foldl_append, List.foldl_cons, List.foldl_nil]
    have hstep := streamStep_yields_le true true cid mid
      (body.foldl (streamStep true true cid mid) (streamInit fcs)) last
    omega

/-- Witness for the amended C4: the threshold is non-decreasing across a
concrete two-fragment stream in normal mode; a flush in two-chunks mode pins
the threshold; and a concrete two-fragment stream in two-chunks mode yields
at most two chunks. -/
theorem sendMessageStreamed_threshold_growth_amended_witness :
    (runStream false false "c" "m" none [⟨none, some "a", none⟩]).maxBufferLength ≤
      (runStream false false "c" "m" none
        ([⟨none, some "a", none⟩] ++ [⟨none, some "b", some "stop"⟩])).maxBufferLength ∧
    (streamStep true true "c" "m" (streamInit none)
        ⟨none, some "x", some "stop"⟩).maxBufferLength = MAX_SAFE_INTEGER ∧
    (runStream true true "c" "m" none
        ([⟨none, some "ab", none⟩] ++ [⟨none, some "cd", some "stop"⟩])).yields.length ≤ 2 := by
  refine ⟨?_, ?_, ?_⟩
  · exact (sendMessageStreamed_threshold_growth_amended false false "c" "m" none
      (streamInit none) ⟨none, some "a", none⟩ [⟨none, some "a", none⟩]
      [⟨none, some "b", some "stop"⟩] [] ⟨none, none, none⟩).2.2.1 (by simp)
  · exact (sendMessageStreamed_threshold_growth_amended true true "c" "m" none
      (streamInit none) ⟨none, some "x", some "stop"⟩ [] [] []
      ⟨none, none, none⟩).2.2.2.1 rfl rfl (Or.inr rfl)
  · exact (sendMessageStreamed_threshold_growth_amended true true "c" "m" none
      (streamInit none) ⟨none, none, none⟩ [] [] [⟨none, some "ab", none⟩]
      ⟨none, some "cd", some "stop"⟩).2.2.2.2 rfl rfl (by decide) rfl (by decide)

/-- String extension order: `strLe a b` when `a` is an initial segment of `b`. -/
def strLe (a b : String) : Prop := ∃ t, a ++ t = b

theorem strLe_refl (a : String) : strLe a a := ⟨"", String.append_empty a⟩

theorem strLe_trans {a b c : String} (h1 : strLe a b) (h2 : strLe b c) : strLe a c := by
  rcases h1 with ⟨t1, rfl⟩
  rcases h2 with ⟨t2, rfl⟩
  exact ⟨t1 ++ t2, (String.append_assoc a t1 t2).symm⟩

theorem strLe_append (a t : String) : strLe a (a ++ t) := ⟨t, rfl⟩

/-- Invariant of the streaming loop state: every yielded chunk is an initial
segment of the accumulated reply text, every yielded chunk carries the fixed
conversation and reply-message ids, and yields grow monotonically. -/
def YieldsInv (cid mid : String) (st : StreamState) : Prop :=
  (∀ y ∈ st.yields,
    strLe y.response st.replyText ∧ y.conversationId = cid ∧ y.messageId = mid) ∧
  List.Pairwise (fun a b => strLe a.response b.response) st.yields

/-- Explicit form of a flushing loop iteration. -/
theorem streamStep_flush_eq (isNew useTwo : Bool) (cid mid : String)
    (st : StreamState) (c : OaiStreamChunk) (hf : flushNow st c) :
    streamStep isNew useTwo cid mid st c =
      { maxBufferLength :=
          if (isNew && useTwo) = true then MAX_SAFE_INTEGER
          else growThreshold st.maxBufferLength,
        buffer := "",
        replyRole :=
          (match c.role with
            | some r => if r = "" then st.replyRole else r
            | none => st.replyRole),
        replyText := st.replyText ++ (st.buffer ++ c.content.getD ""),
        yields := st.yields ++
          [{ response := st.replyText ++ (st.buffer ++ c.content.getD ""),
             conversationId := cid, messageId := mid,
             isLastChunk := some c.finish_reason.isSome }] } := by
  simp [streamStep, hf]

/-- Explicit form of a non-flushing loop iteration. -/
theorem streamStep_noflush_eq (isNew useTwo : Bool) (cid mid : String)
    (st : StreamState) (c : OaiStreamChunk) (hf : ¬ flushNow st c) :
    streamStep isNew useTwo cid mid st c =
      { st with
        buffer := st.buffer ++ c.content.getD "",
        replyRole :=
          (match c.role with
            | some r => if r = "" then st.replyRole else r
            | none => st.replyRole) } := by
  simp [streamStep, hf]

theorem streamStep_yieldsInv (isNew useTwo : Bool) (cid mid : String)
    (st : StreamState) (c : OaiStreamChunk) (h : YieldsInv cid mid st) :
    YieldsInv cid mid (streamStep isNew useTwo cid mid st c) := by
  rcases h with ⟨hall, hpw⟩
  by_cases hf : flushNow st c
  · rw [streamStep_flush_eq isNew useTwo cid mid st c hf]
    constructor
    · intro y hy
      simp only [List.mem_append, List.mem_singleton] at hy
      rcases hy with hy | hy
      · rcases hall y hy with ⟨hle, hc1, hc2⟩
        exact ⟨strLe_trans hle (strLe_append _ _), hc1, hc2⟩
      · subst hy
        exact ⟨strLe_refl _, rfl, rfl⟩
    · rw [List.pairwise_append]
      refine ⟨hpw, by simp, ?_⟩
      intro a ha b hb
      simp only [List.mem_singleton] at hb
      subst hb
      rcases hall a ha with ⟨hle, _, _⟩
      exact strLe_trans hle (strLe_append _ _)
  · rw [streamStep_noflush_eq isNew useTwo cid mid st c hf]
    exact ⟨fun y hy => hall y hy, hpw⟩

theorem foldl_yieldsInv (isNew useTwo : Bool) (cid mid : String) :
    ∀ (l : List OaiStreamChunk) (st : StreamState),
      YieldsInv cid mid st →
      YieldsInv cid mid (l.foldl (streamStep isNew useTwo cid mid) st) := by
  intro l
  induction l with
  | nil => intro st h; exact h
  | cons c rest ih =>
    intro st h
    exact ih _ (streamStep_yieldsInv isNew useTwo cid mid st c h)

/-- As long as no terminal fragment has been consumed, every yielded chunk
has `isLastChunk = false`. -/
theorem foldl_isLastChunk_false (isNew useTwo : Bool) (cid mid : String) :
    ∀ (l : List OaiStreamChunk) (st : StreamState),
      (∀ x ∈ l, x.finish_reason = none) →
      (∀ y ∈ st.yields, y.isLastChunk = some false) →
      ∀ y ∈ (l.foldl (streamStep isNew useTwo cid mid) st).yields,
        y.isLastChunk = some false := by
  intro l
  induction l with
  | nil => intro st _ h; exact h
  | cons c rest ih =>
    intro st hfin h
    refine ih _ (fun x hx => hfin x (by simp [hx])) ?_
    have hc : c.finish_reason = none := hfin c (by simp)
    by_cases hf : flushNow st c
    · intro y hy
      rw [streamStep_flush_eq isNew useTwo cid mid st c hf] at hy
      simp only [List.mem_append, List.mem_singleton] at hy
      rcases hy with hy | hy
      · exact h y hy
      · subst hy
        simp [hc]
    · intro y hy
      rw [streamStep_noflush_eq isNew useTwo cid mid st c hf] at hy
      exact h y hy

theorem map_eq_replicate {α β : Type} (f : α → β) (l : List α) (b : β)
    (h : ∀ y ∈ l, f y = b) : l.map f = List.replicate l.length b := by
  have : ∀ z ∈ l.map f, z = b := by
    intro z hz
    rcases List.mem_map.1 hz with ⟨y, hy, rfl⟩
    exact h y hy
  have := List.eq_replicate_of_mem this
  simpa using this

/-- Claim C9: yields of the streaming loop only ever grow (each response is
an initial segment of every later response), all carry the fixed conversation
and reply-message ids, and for a stream whose single terminal fragment comes
last, `isLastChunk` is false on every yield except the final one, where it is
true. -/
theorem sendMessageStreamed_yield_invariants (isNew useTwo : Bool) (cid mid : String)
    (fcs : Option Nat) (chunks body : List OaiStreamChunk) (last : OaiStreamChunk) :
    List.Pairwise (fun a b => strLe a.response b.response)
        (runStream isNew useTwo cid mid fcs chunks).yields ∧
    (∀ y ∈ (runStream isNew useTwo cid mid fcs chunks).yields,
        y.conversationId = cid ∧ y.messageId = mid) ∧
    ((∀ x ∈ body, x.finish_reason = none) → last.finish_reason.isSome = true →
      (runStream isNew useTwo cid mid fcs (body ++ [last])).yields.map
          (fun y => y.isLastChunk) =
        List.replicate
          ((runStream isNew useTwo cid mid fcs (body ++ [last])).yields.length - 1)
          (some false) ++ [some true]) := by
  have hinit : YieldsInv cid mid (streamInit fcs) := by
    constructor <;> simp [streamInit]
  have hinv := foldl_yieldsInv isNew useTwo cid mid chunks (streamInit fcs) hinit
  refine ⟨hinv.2, fun y hy => (hinv.1 y hy).2, ?_⟩
  intro hbody hlast
  have hfalse := foldl_isLastChunk_false isNew useTwo cid mid body (streamInit fcs)
    hbody (by simp [streamInit])
  set bodySt := body.foldl (streamStep isNew useTwo cid mid) (streamInit fcs) with hbs
  have hfl : flushNow bodySt last := Or.inr hlast
  have hrun : (runStream isNew useTwo cid mid fcs (body ++ [last])).yields =
      bodySt.yields ++
        [{ response := bodySt.replyText ++ (bodySt.buffer ++ last.content.getD ""),
           conversationId := cid, messageId := mid,
           isLastChunk := some last.finish_reason.isSome }] := by
    rw [runStream, List.foldl_append, List.foldl_cons, List.foldl_nil, ← hbs,
      streamStep_flush_eq isNew useTwo cid mid bodySt last hfl]
  rw [hrun]
  rw [List.map_append]
  rw [map_eq_replicate (fun y => y.isLastChunk) bodySt.yields (some false) hfalse]
  simp [hlast]

/-- Witness for C9 at a concrete two-fragment stream: the final yield is the
only one marked as last chunk. -/
theorem sendMessageStreamed_yield_invariants_witness :
    (runStream false false "c" "m" none
        ([⟨none, some "hi", none⟩] ++ [⟨none, some "x", some "stop"⟩])).yields.map
        (fun y => y.isLastChunk) =
      List.replicate
        ((runStream false false "c" "m" none
          ([⟨none, some "hi", none⟩] ++ [⟨none, some "x", some "stop"⟩])).yields.length - 1)
        (some false) ++ [some true] :=
  (sendMessageStreamed_yield_invariants false false "c" "m" none
    ([⟨none, some "hi", none⟩] ++ [⟨none, some "x", some "stop"⟩])
    [⟨none, some "hi", none⟩] ⟨none, some "x", some "stop"⟩).2.2 (by decide) rfl

/-! ## The conversation store and the ChatClient operations
(ChatClient.ts lines 223-434)

The Keyv cache becomes an association list threaded explicitly; `set`
prepends, `get` takes the most recent binding.  Fresh UUIDs
(`crypto.randomUUID()`) and the upstream completion API are injected as
parameters; `Date.now()` becomes the `now` parameter. -/

def Store : Type := List (String × Conversation)

def storeGet (store : Store) (k : String) : Option Conversation :=
  (store.find? (fun p => p.1 == k)).map (fun p => p.2)

def storeSet (store : Store) (k : String) (v : Conversation) : Store :=
  (k, v) :: store

theorem storeGet_set (store : Store) (k : String) (v : Conversation) :
    storeGet (storeSet store k v) k = some v := by
  simp [storeGet, storeSet, List.find?_cons]

/-- `ChatClientOptions` from ChatClient.ts.  `modelId`, `temperature` and
`maxOutputTokens` are copied verbatim into the request and play no role in
the claims; they are carried for completeness. -/
structure ChatClientOptions where
  modelId : String := "gpt"
  temperature : Option Nat := none
  systemMessage : Option String := none
  maxInputTokens : Option Nat := none
  maxOutputTokens : Option Nat := none
  firstChunkSize : Option Nat := none
  useTwoChunksForFirstReply : Bool := false

/-- JS `ref.field || crypto.randomUUID()`: the stored id when truthy,
otherwise the injected fresh id. -/
def resolveId (value : Option String) (fresh : String) : String :=
  match value with
  | some s => if s = "" then fresh else s
  | none => fresh

/-- Result of the private `getConversation` helper. -/
structure ResolvedConversation where
  conversationId : String
  conversation : Conversation
  isNewConversation : Bool
  tailMessageId : String
deriving Repr, DecidableEq

/-- `getConversation(conversationRef)` from ChatClient.ts: resolve both ids,
fetch the conversation from the cache, lazily creating an empty one. -/
def getConversation (store : Store) (conversationRef : ConversationRef)
    (freshConversationId freshTailMessageId : String) (now : Nat) :
    ResolvedConversation :=
  let conversationId := resolveId conversationRef.conversationId freshConversationId
  let tailMessageId := resolveId conversationRef.tailMessageId freshTailMessageId
  match storeGet store conversationId with
  | some conversation =>
    { conversationId := conversationId, conversation := conversation,
      isNewConversation := false, tailMessageId := tailMessageId }
  | none =>
    { conversationId := conversationId,
      conversation := { messages := [], createdAt := now },
      isNewConversation := true, tailMessageId := tailMessageId }

theorem getConversation_fields (store : Store) (conversationRef : ConversationRef)
    (fCid fTid : String) (now : Nat) :
    (getConversation store conversationRef fCid fTid now).conversationId =
        resolveId conversationRef.conversationId fCid ∧
      (getConversation store conversationRef fCid fTid now).tailMessageId =
        resolveId conversationRef.tailMessageId fTid := by
  unfold getConversation
  cases h : storeGet store (resolveId conversationRef.conversationId fCid) <;> simp [h]

/-- Result of `saveImage`. -/
structure SaveImageResult where
  conversationId : String
  messageId : String
deriving Repr, DecidableEq

/-- `saveImage(imageUrl, conversationRef)` from ChatClient.ts: append a user
message carrying only the image, persist, return the new tail. -/
def saveImage (store : Store) (imageUrl : String) (conversationRef : ConversationRef)
    (freshConversationId freshTailMessageId freshMessageId : String) (now : Nat) :
    Store × SaveImageResult :=
  let r := getConversation store conversationRef freshConversationId freshTailMessageId now
  let userMessage : ConversationMessage :=
    { id := freshMessageId, parentMessageId := r.tailMessageId, role := "user",
      message := "", image := some imageUrl }
  let conversation :=
    { r.conversation with messages := r.conversation.messages ++ [userMessage] }
  (storeSet store r.conversationId conversation,
   { conversationId := r.conversationId, messageId := freshMessageId })

/-- What `prepareRequest` hands to the API call and to the persisting code.
Of `requestParams` only `messages` is modelled; `model`, `temperature` and
`max_tokens` are verbatim copies of the options. -/
structure PreparedRequest where
  requestMessages : List OaiMessage
  isNewConversation : Bool
  userMessage : ConversationMessage
  conversationId : String
  conversation : Conversation
deriving Repr, DecidableEq

/-- `prepareRequest(newMessage, conversationRef)` from ChatClient.ts: resolve
the conversation, append the new user text message, rebuild the linear
history, convert it to request form, trim it to the token budget (this can
throw `PromptTooLong`), and prepend the configured system message if any. -/
def prepareRequest (enc : String → Nat) (options : ChatClientOptions) (store : Store)
    (newMessage : String) (conversationRef : ConversationRef)
    (freshConversationId freshTailMessageId freshUserMessageId : String) (now : Nat) :
    Except PromptTooLong PreparedRequest :=
  let r := getConversation store conversationRef freshConversationId freshTailMessageId now
  let userMessage : ConversationMessage :=
    { id := freshUserMessageId, parentMessageId := r.tailMessageId, role := "user",
      message := newMessage, image := none }
  let conversation :=
    { r.conversation with messages := r.conversation.messages ++ [userMessage] }
  let messagesThread := getMessageList conversation.messages userMessage.id
  let oaiHistory := toOaiHistory messagesThread
  match constraintInput enc oaiHistory options.maxInputTokens with
  | .error e => .error e
  | .ok constrained =>
    let requestMessages :=
      match options.systemMessage with
      | some sys =>
        if sys = "" then constrained
        else { role := "system", content := OaiContent.str sys } :: constrained
      | none => constrained
    .ok { requestMessages := requestMessages, isNewConversation := r.isNewConversation,
          userMessage := userMessage, conversationId := r.conversationId,
          conversation := conversation }

/-- The message of a non-streaming completion response (`choices[0].message`). -/
structure OaiReplyMessage where
  role : String
  content : Option String
deriving Repr, DecidableEq

/-- The errors a turn can end with: the trimmer threw, or the upstream API
call (or stream) failed. -/
inductive ChatError
  | promptTooLong (e : PromptTooLong)
  | apiError
deriving Repr, DecidableEq

/-- `sendMessage(newMessage, conversationRef)` from ChatClient.ts.  The
upstream call is injected as `apiResult`; a throwing call is `.error`.  The
returned store is the cache after the turn: the single `conversationsCache.set`
happens only after the API call succeeded. -/
def sendMessage (enc : String → Nat) (options : ChatClientOptions) (store : Store)
    (newMessage : String) (conversationRef : ConversationRef)
    (freshConversationId freshTailMessageId freshUserMessageId freshReplyMessageId : String)
    (now : Nat) (apiResult : Except Unit OaiReplyMessage) :
    Store × Except ChatError ChatClientResult :=
  match prepareRequest enc options store newMessage conversationRef
      freshConversationId freshTailMessageId freshUserMessageId now with
  | .error e => (store, .error (.promptTooLong e))
  | .ok prep =>
    match apiResult with
    | .error _ => (store, .error .apiError)
    | .ok oaiReplyMessage =>
      let replyMessage : ConversationMessage :=
        { id := freshReplyMessageId, parentMessageId := prep.userMessage.id,
          role := oaiReplyMessage.role,
          message := oaiReplyMessage.content.getD "", image := none }
      let conversation :=
        { prep.conversation with
          messages := prep.conversation.messages ++ [replyMessage] }
      (storeSet store prep.conversationId conversation,
       .ok { response := replyMessage.message, conversationId := prep.conversationId,
             messageId := replyMessage.id })

/-- `sendMessageStreamed(newMessage, conversationRef)` from ChatClient.ts.
`apiOk = false` models the streaming create call itself throwing;
`streamFails = true` models the stream throwing after the modelled chunks
were consumed (the consumer has already received the yields, but the final
`conversationsCache.set` is never reached).  On success the assistant message
holds the flushed reply text and the store is written once, after the loop. -/
def sendMessageStreamed (enc : String → Nat) (options : ChatClientOptions)
    (store : Store) (newMessage : String) (conversationRef : ConversationRef)
    (freshConversationId freshTailMessageId freshUserMessageId freshReplyMessageId : String)
    (now : Nat) (apiOk : Bool) (chunks : List OaiStreamChunk) (streamFails : Bool) :
    Store × List ChatClientResult × Option ChatError :=
  match prepareRequest enc options store newMessage conversationRef
      freshConversationId freshTailMessageId freshUserMessageId now with
  | .error e => (store, [], some (.promptTooLong e))
  | .ok prep =>
    match apiOk with
    | false => (store, [], some .apiError)
    | true =>
      let st := runStream prep.isNewConversation options.useTwoChunksForFirstReply
        prep.conversationId freshReplyMessageId options.firstChunkSize chunks
      match streamFails with
      | true => (store, st.yields, some .apiError)
      | false =>
        let replyMessage : ConversationMessage :=
          { id := freshReplyMessageId, parentMessageId := prep.userMessage.id,
            role := st.replyRole, message := st.replyText, image := none }
        let conversation :=
          { prep.conversation with
            messages := prep.conversation.messages ++ [replyMessage] }
        (storeSet store prep.conversationId conversation, st.yields, none)

/-- Characterization of a successful `prepareRequest`: the trimmer succeeded
on the rebuilt history and every field of the result is determined by the
resolved conversation and the fresh user message. -/
theorem prepareRequest_ok (enc : String → Nat) (options : ChatClientOptions)
    (store : Store) (newMessage : String) (conversationRef : ConversationRef)
    (fCid fTid fUid : String) (now : Nat) (prep : PreparedRequest)
    (h : prepareRequest enc options store newMessage conversationRef
      fCid fTid fUid now = .ok prep) :
    ∃ constrained,
      constraintInput enc
          (toOaiHistory (getMessageList
            ((getConversation store conversationRef fCid fTid now).conversation.messages ++
              [{ id := fUid,
                 parentMessageId :=
                   (getConversation store conversationRef fCid fTid now).tailMessageId,
                 role := "user", message := newMessage, image := none }]) fUid))
          options.maxInputTokens = .ok constrained ∧
      prep =
        { requestMessages :=
            (match options.systemMessage with
             | some sys =>
               if sys = "" then constrained
               else { role := "system", content := OaiContent.str sys } :: constrained
             | none => constrained),
          isNewConversation :=
            (getConversation store conversationRef fCid fTid now).isNewConversation,
          userMessage :=
            { id := fUid,
              parentMessageId :=
                (getConversation store conversationRef fCid fTid now).tailMessageId,
              role := "user", message := newMessage, image := none },
          conversationId :=
            (getConversation store conversationRef fCid fTid now).conversationId,
          conversation :=
            { messages :=
                (getConversation store conversationRef fCid fTid now).conversation.messages ++
                  [{ id := fUid,
                     parentMessageId :=
                       (getConversation store conversationRef fCid fTid now).tailMessageId,
                     role := "user", message := newMessage, image := none }],
              createdAt :=
                (getConversation store conversationRef fCid fTid now).conversation.createdAt } } := by
  simp only [prepareRequest] at h
  cases hci : constraintInput enc
      (toOaiHistory (getMessageList
        ((getConversation store conversationRef fCid fTid now).conversation.messages ++
          [{ id := fUid,
             parentMessageId :=
               (getConversation store conversationRef fCid fTid now).tailMessageId,
             role := "user", message := newMessage, image := none }]) fUid))
      options.maxInputTokens with
  | error e =>
    rw [hci] at h
    exact absurd h (by simp)
  | ok c =>
    rw [hci] at h
    simp only [Except.ok.injEq] at h
    exact ⟨c, rfl, h.symm⟩

/-- Claim C6: a successful non-streaming `sendMessage` appends exactly two
messages to the conversation — first the user message whose parent is the
resolved tail id (`ref.tailMessageId` or the freshly minted id) and whose
text is the input, then the assistant reply parented to the user message —
persists the conversation under the conversation id, and returns the reply
id as the new tail and the reply text as the response. -/
theorem sendMessage_appends_two_messages (enc : String → Nat)
    (options : ChatClientOptions) (store : Store) (newMessage : String)
    (conversationRef : ConversationRef) (fCid fTid fUid fRid : String) (now : Nat)
    (apiMsg : OaiReplyMessage) (store2 : Store) (res : ChatClientResult)
    (hrun : sendMessage enc options store newMessage conversationRef
      fCid fTid fUid fRid now (.ok apiMsg) = (store2, .ok res)) :
    (getConversation store conversationRef fCid fTid now).tailMessageId =
        resolveId conversationRef.tailMessageId fTid ∧
    store2 = storeSet store
        (getConversation store conversationRef fCid fTid now).conversationId
        { messages :=
            (getConversation store conversationRef fCid fTid now).conversation.messages ++
              [{ id := fUid,
                 parentMessageId :=
                   (getConversation store conversationRef fCid fTid now).tailMessageId,
                 role := "user", message := newMessage, image := none },
               { id := fRid, parentMessageId := fUid, role := apiMsg.role,
                 message := apiMsg.content.getD "", image := none }],
          createdAt :=
            (getConversation store conversationRef fCid fTid now).conversation.createdAt } ∧
    res = { response := apiMsg.content.getD "",
            conversationId :=
              (getConversation store conversationRef fCid fTid now).conversationId,
            messageId := fRid, isLastChunk := none } := by
  unfold sendMessage at hrun
  cases hp : prepareRequest enc options store newMessage conversationRef
      fCid fTid fUid now with
  | error e =>
    rw [hp] at hrun
    exact absurd hrun (by simp)
  | ok prep =>
    rw [hp] at hrun
    obtain ⟨c, hci, hprep⟩ := prepareRequest_ok enc options store newMessage
      conversationRef fCid fTid fUid now prep hp
    subst hprep
    simp only [Prod.mk.injEq, Except.ok.injEq] at hrun
    obtain ⟨hst, hres⟩ := hrun
    refine ⟨(getConversation_fields store conversationRef fCid fTid now).2, ?_, ?_⟩
    · rw [← hst]
      simp [List.append_assoc]
    · rw [← hres]

/-- Witness for C6 at a concrete turn on the empty store. -/
theorem sendMessage_appends_two_messages_witness :
    ([(("c" : String),
       ({ messages :=
            [{ id := "u", parentMessageId := "t", role := "user",
               message := "hi", image := none },
             { id := "r", parentMessageId := "u", role := "assistant",
               message := "hello", image := none }],
          createdAt := 0 } : Conversation))] : Store) = storeSet []
        (getConversation [] ⟨none, none⟩ "c" "t" 0).conversationId
        { messages :=
            (getConversation [] ⟨none, none⟩ "c" "t" 0).conversation.messages ++
              [{ id := "u",
                 parentMessageId := (getConversation [] ⟨none, none⟩ "c" "t" 0).tailMessageId,
                 role := "user", message := "hi", image := none },
               { id := "r", parentMessageId := "u", role := "assistant",
                 message := "hello", image := none }],
          createdAt := (getConversation [] ⟨none, none⟩ "c" "t" 0).conversation.createdAt } ∧
    ({ response := "hello", conversationId := "c", messageId := "r",
       isLastChunk := none } : ChatClientResult) =
      { response := (⟨"assistant", some "hello"⟩ : OaiReplyMessage).content.getD "",
        conversationId := (getConversation [] ⟨none, none⟩ "c" "t" 0).conversationId,
        messageId := "r", isLastChunk := none } :=
  ((sendMessage_appends_two_messages lenEnc {} [] "hi" ⟨none, none⟩ "c" "t" "u" "r" 0
    ⟨"assistant", some "hello"⟩ _ _ rfl).2.imp id id : _ ∧ _)

/-- Claim C7: a turn that fails — the trimmer threw `PromptTooLong`, the API
call threw, or the stream threw before completing — leaves the persisted
store exactly as it was: the single store write sits after the API call
(respectively after the whole stream) in both `sendMessage` and
`sendMessageStreamed`. -/
theorem failed_turn_leaves_store_unmodified (enc : String → Nat)
    (options : ChatClientOptions) (store : Store) (newMessage : String)
    (conversationRef : ConversationRef) (fCid fTid fUid fRid : String) (now : Nat)
    (apiResult : Except Unit OaiReplyMessage) (apiOk : Bool)
    (chunks : List OaiStreamChunk) (streamFails : Bool) :
    (∀ e, (sendMessage enc options store newMessage conversationRef
        fCid fTid fUid fRid now apiResult).2 = .error e →
      (sendMessage enc options store newMessage conversationRef
        fCid fTid fUid fRid now apiResult).1 = store) ∧
    (∀ e, (sendMessageStreamed enc options store newMessage conversationRef
        fCid fTid fUid fRid now apiOk chunks streamFails).2.2 = some e →
      (sendMessageStreamed enc options store newMessage conversationRef
        fCid fTid fUid fRid now apiOk chunks streamFails).1 = store) := by
  constructor
  · intro e he
    unfold sendMessage at he ⊢
    cases hp : prepareRequest enc options store newMessage conversationRef
        fCid fTid fUid now with
    | error e2 => rfl
    | ok prep =>
      cases apiResult with
      | error u => rfl
      | ok m => exact absurd he (by simp [hp])
  · intro e he
    unfold sendMessageStreamed at he ⊢
    cases hp : prepareRequest enc options store newMessage conversationRef
        fCid fTid fUid now with
    | error e2 => rfl
    | ok prep =>
      cases apiOk with
      | false => rfl
      | true =>
        cases streamFails with
        | false => exact absurd he (by simp [hp])
        | true => simp [hp]

/-- Witness for C7: a concrete failing API call and a concrete failing
stream both leave the empty store empty. -/
theorem failed_turn_leaves_store_unmodified_witness :
    (sendMessage lenEnc {} [] "hi" ⟨none, none⟩ "c" "t" "u" "r" 0 (.error ())).1 = [] ∧
    (sendMessageStreamed lenEnc {} [] "hi" ⟨none, none⟩ "c" "t" "u" "r" 0
      true [] true).1 = [] := by
  constructor
  · exact (failed_turn_leaves_store_unmodified lenEnc {} [] "hi" ⟨none, none⟩
      "c" "t" "u" "r" 0 (.error ()) true [] true).1 .apiError rfl
  · exact (failed_turn_leaves_store_unmodified lenEnc {} [] "hi" ⟨none, none⟩
      "c" "t" "u" "r" 0 (.error ()) true [] true).2 .apiError rfl

/-- The terminal fragment always forces a flush: after a stream ending in a
fragment with a finish reason, the buffer is empty, the accumulated reply
text is the concatenation of all delta fragments, and the final yield carries
exactly that text. -/
theorem runStream_last_flush (isNew useTwo : Bool) (cid mid : String)
    (fcs : Option Nat) (body : List OaiStreamChunk) (last : OaiStreamChunk)
    (hlast : last.finish_reason.isSome = true) :
    (runStream isNew useTwo cid mid fcs (body ++ [last])).buffer = "" ∧
    (runStream isNew useTwo cid mid fcs (body ++ [last])).replyText =
      concatContents (body ++ [last]) ∧
    (runStream isNew useTwo cid mid fcs (body ++ [last])).yields ≠ [] ∧
    ((runStream isNew useTwo cid mid fcs (body ++ [last])).yields.getLast?.map
      (fun y => y.response)) =
      some ((runStream isNew useTwo cid mid fcs (body ++ [last])).replyText) := by
  have hfl : flushNow (body.foldl (streamStep isNew useTwo cid mid) (streamInit fcs))
      last := Or.inr hlast
  have hrs : runStream isNew useTwo cid mid fcs (body ++ [last]) =
      streamStep isNew useTwo cid mid
        (body.foldl (streamStep isNew useTwo cid mid) (streamInit fcs)) last := by
    rw [runStream, List.foldl_append, List.foldl_cons, List.foldl_nil]
  have hacc := foldl_replyText_buffer isNew useTwo cid mid body (streamInit fcs)
  have hacc2 : (body.foldl (streamStep isNew useTwo cid mid) (streamInit fcs)).replyText ++
      (body.foldl (streamStep isNew useTwo cid mid) (streamInit fcs)).buffer =
      concatContents body := by
    simpa [streamInit] using hacc
  rw [hrs, streamStep_flush_eq _ _ _ _ _ _ hfl]
  refine ⟨rfl, ?_, by simp, by simp [List.getLast?_concat]⟩
  show (body.foldl (streamStep isNew useTwo cid mid) (streamInit fcs)).replyText ++
      ((body.foldl (streamStep isNew useTwo cid mid) (streamInit fcs)).buffer ++
        last.content.getD "") = concatContents (body ++ [last])
  rw [← String.append_assoc, hacc2, concatContents_append]
  simp [concatContents, String.append_empty]

/-- Claim C10: when the upstream stream terminates with a fragment carrying a
finish reason, a successful streamed turn persists an assistant message whose
text equals the response of the final yielded chunk, both being the
concatenation of all upstream delta fragments — no buffered text is lost. -/
theorem sendMessageStreamed_persists_full_text (enc : String → Nat)
    (options : ChatClientOptions) (store : Store) (newMessage : String)
    (conversationRef : ConversationRef) (fCid fTid fUid fRid : String) (now : Nat)
    (body : List OaiStreamChunk) (last : OaiStreamChunk)
    (store2 : Store) (yields : List ChatClientResult)
    (hlast : last.finish_reason.isSome = true)
    (hrun : sendMessageStreamed enc options store newMessage conversationRef
      fCid fTid fUid fRid now true (body ++ [last]) false = (store2, yields, none)) :
    ∃ (cid : String) (conv : Conversation),
      store2 = storeSet store cid conv ∧
      (conv.messages.getLast?.map (fun m => m.message)) =
        some (concatContents (body ++ [last])) ∧
      yields ≠ [] ∧
      (yields.getLast?.map (fun y => y.response)) =
        some (concatContents (body ++ [last])) := by
  unfold sendMessageStreamed at hrun
  cases hp : prepareRequest enc options store newMessage conversationRef
      fCid fTid fUid now with
  | error e =>
    rw [hp] at hrun
    exact absurd hrun (by simp)
  | ok prep =>
    rw [hp] at hrun
    have hrun2 : (storeSet store prep.conversationId
        { messages := prep.conversation.messages ++
            [{ id := fRid, parentMessageId := prep.userMessage.id,
               role := (runStream prep.isNewConversation
                 options.useTwoChunksForFirstReply prep.conversationId fRid
                 options.firstChunkSize (body ++ [last])).replyRole,
               message := (runStream prep.isNewConversation
                 options.useTwoChunksForFirstReply prep.conversationId fRid
                 options.firstChunkSize (body ++ [last])).replyText, image := none }],
          createdAt := prep.conversation.createdAt },
        (runStream prep.isNewConversation options.useTwoChunksForFirstReply
          prep.conversationId fRid options.firstChunkSize (body ++ [last])).yields,
        (none : Option ChatError)) = (store2, yields, none) := hrun
    obtain ⟨hlf, hrt, hny, hlr⟩ :=
      runStream_last_flush prep.isNewConversation options.useTwoChunksForFirstReply
        prep.conversationId fRid options.firstChunkSize body last hlast
    simp only [Prod.mk.injEq] at hrun2
    obtain ⟨hst, hyl, _⟩ := hrun2
    refine ⟨prep.conversationId,
      { messages := prep.conversation.messages ++
          [{ id := fRid, parentMessageId := prep.userMessage.id,
             role := (runStream prep.isNewConversation
               options.useTwoChunksForFirstReply prep.conversationId fRid
               options.firstChunkSize (body ++ [last])).replyRole,
             message := (runStream prep.isNewConversation
               options.useTwoChunksForFirstReply prep.conversationId fRid
               options.firstChunkSize (body ++ [last])).replyText, image := none }],
        createdAt := prep.conversation.createdAt }, ?_, ?_, ?_, ?_⟩
    · rw [← hst]
    · simp [List.getLast?_concat, hrt]
    · rw [← hyl]; exact hny
    · rw [← hyl, hlr, hrt]

/-- Witness for C10 at a concrete stream of two fragments (`"hi"` then the
terminal `"x"`): the persisted assistant text and the final yield both carry
`"hix"`. -/
theorem sendMessageStreamed_persists_full_text_witness :
    ∃ (cid : String) (conv : Conversation),
      ([("c", { messages :=
          [{ id := "u", parentMessageId := "t", role := "user",
             message := "q", image := none },
           { id := "r", parentMessageId := "u", role := "assistant",
             message := "hix", image := none }], createdAt := 0 })] : Store) =
        storeSet [] cid conv ∧
      (conv.messages.getLast?.map (fun m => m.message)) =
        some (concatContents
          ([⟨none, some "hi", none⟩] ++ [⟨none, some "x", some "stop"⟩])) ∧
      ([({ response := "hix", conversationId := "c", messageId := "r",
           isLastChunk := some true } : ChatClientResult)] : List ChatClientResult) ≠ [] ∧
      (([({ response := "hix", conversationId := "c", messageId := "r",
            isLastChunk := some true } : ChatClientResult)] :
          List ChatClientResult).getLast?.map (fun y => y.response)) =
        some (concatContents
          ([⟨none, some "hi", none⟩] ++ [⟨none, some "x", some "stop"⟩])) :=
  sendMessageStreamed_persists_full_text lenEnc {} [] "q" ⟨none, none⟩ "c" "t" "u" "r" 0
    [⟨none, some "hi", none⟩] ⟨none, some "x", some "stop"⟩
    [("c", { messages :=
        [{ id := "u", parentMessageId := "t", role := "user",
           message := "q", image := none },
         { id := "r", parentMessageId := "u", role := "assistant",
           message := "hix", image := none }], createdAt := 0 })]
    [{ response := "hix", conversationId := "c", messageId := "r",
       isLastChunk := some true }]
    rfl rfl

/-- Whole-chain form of `getMessageListFuel_of_chainTo`: the loop computes
exactly any terminating chain. -/
theorem getMessageList_of_chainTo {messages : List ConversationMessage} {i : String}
    {l : List ConversationMessage} (h : ChainTo messages i l) :
    getMessageList messages i = l := by
  have hlen := chainTo_length_le h
  have := getMessageListFuel_of_chainTo h (messages.length + 1) (by omega) []
  simpa [getMessageList] using this

/-- `find` skips a prefix none of whose elements carry the sought id. -/
theorem lookupMessage_append_fresh (l1 l2 : List ConversationMessage) (i : String)
    (h : ∀ m ∈ l1, m.id ≠ i) :
    lookupMessage (l1 ++ l2) i = lookupMessage l2 i := by
  induction l1 with
  | nil => rfl
  | cons x rest ih =>
    have hx : (x.id == i) = false := beq_eq_false_iff_ne.mpr (h x (by simp))
    simp only [lookupMessage, List.cons_append, List.find?_cons, hx]
    exact ih (fun m hm => h m (by simp [hm]))

/-- Processing a user-role conversation message always leaves the request
history non-empty with a trailing user turn whose part list ends in this
message's part. -/
theorem toOaiStep_user_getLast (H : List OaiMessage) (m : ConversationMessage)
    (hrole : m.role = "user") :
    ∃ ps, (toOaiStep H m).getLast? =
        some { role := "user", content := .parts (ps ++ [messagePart m]) } ∧
      toOaiStep H m ≠ [] := by
  have hn : normalizeRole m.role = "user" := by
    rw [hrole]; rfl
  cases hl : H.getLast? with
  | none =>
    refine ⟨[], ?_, ?_⟩ <;> simp [toOaiStep, hn, hl, List.getLast?_concat]
  | some lastm =>
    by_cases hlr : lastm.role = "user"
    · refine ⟨contentAsParts lastm.content, ?_, ?_⟩ <;>
        simp [toOaiStep, hn, hl, hlr, List.getLast?_concat]
    · refine ⟨[], ?_, ?_⟩ <;> simp [toOaiStep, hn, hl, hlr, List.getLast?_concat]

/-- A user-role message merges into a trailing user turn. -/
theorem toOaiStep_merge (A : List OaiMessage) (m : ConversationMessage)
    (t : OaiMessage) (hrole : m.role = "user")
    (hlast : A.getLast? = some t) (ht : t.role = "user") :
    toOaiStep A m = A.dropLast ++
      [{ role := "user",
         content := .parts (contentAsParts t.content ++ [messagePart m]) }] := by
  have hn : normalizeRole m.role = "user" := by
    rw [hrole]; rfl
  simp [toOaiStep, hn, hlast, ht]

/-- An image-only user message immediately followed by a text user message
merges into one user turn whose part list ends with the image part and then
the text part, whatever precedes them. -/
theorem toOaiHistory_image_text (l : List ConversationMessage)
    (img user : ConversationMessage) (url : String)
    (himg : img.image = some url) (himgrole : img.role = "user")
    (huimg : user.image = none) (hurole : user.role = "user") :
    ∃ ps, (toOaiHistory (l ++ [img, user])).getLast? =
        some { role := "user",
               content := .parts (ps ++ [.imageUrl url "auto", .text user.message]) } ∧
      toOaiHistory (l ++ [img, user]) ≠ [] := by
  have hfold : toOaiHistory (l ++ [img, user]) =
      toOaiStep (toOaiStep (toOaiHistory l) img) user := by
    rw [toOaiHistory, toOaiHistory, List.foldl_append, List.foldl_cons,
      List.foldl_cons, List.foldl_nil]
  obtain ⟨ps0, hA, hAne⟩ := toOaiStep_user_getLast (toOaiHistory l) img himgrole
  have hnu : normalizeRole user.role = "user" := by
    rw [hurole]; rfl
  have humsg : messagePart user = .text user.message := by
    simp [messagePart, huimg]
  have himsg : messagePart img = .imageUrl url "auto" := by
    simp [messagePart, himg]
  rw [himsg] at hA
  refine ⟨ps0, ?_, ?_⟩
  · rw [hfold, toOaiStep_merge _ user _ hurole hA rfl, List.getLast?_concat]
    simp [contentAsParts, humsg, List.append_assoc]
  · rw [hfold, toOaiStep_merge _ user _ hurole hA rfl]
    simp

/-- A successful trim of a non-empty history is non-empty and keeps the
newest message: on success the trimmer returns the entire history. -/
theorem constraintInput_ok_getLast (enc : String → Nat) (H res : List OaiMessage)
    (mi : Option Nat) (hne : H ≠ []) (h : constraintInput enc H mi = .ok res) :
    res ≠ [] ∧ res.getLast? = H.getLast? := by
  cases mi with
  | none =>
    simp only [constraintInput, Except.ok.injEq] at h
    subst h
    exact ⟨hne, rfl⟩
  | some b =>
    simp only [constraintInput] at h
    have hres := constraintLoop_zero_ok enc b H.reverse [] res h
    simp only [List.append_nil, List.reverse_reverse] at hres
    subst hres
    exact ⟨hne, rfl⟩

/-- Claim C5: `saveImage(url, ref)` followed by `sendMessage(text)` with the
returned ref produces an upstream request in which the image and the text
form one single user turn — a part list ending with the image part followed
by the text part, in that order — not two separate user messages.  Stated
over `prepareRequest`, the request builder shared by `sendMessage` and
`sendMessageStreamed`.  The hypotheses say the injected fresh UUIDs are
non-empty and do not collide with stored ids, and that the ancestor walk from
the pre-existing tail terminates with some chain `rest` (true of any store
this client writes, since parent links only point backward). -/
theorem saveImage_then_sendMessage_single_user_turn
    (enc : String → Nat) (options : ChatClientOptions) (store : Store)
    (imageUrl text : String) (conversationRef : ConversationRef)
    (fCid fTid fImg fCid2 fTid2 fUid : String) (now now2 : Nat)
    (store2 : Store) (saveRes : SaveImageResult) (prep : PreparedRequest)
    (rest : List ConversationMessage)
    (hsave : saveImage store imageUrl conversationRef fCid fTid fImg now =
      (store2, saveRes))
    (hprep : prepareRequest enc options store2 text
      ⟨some saveRes.conversationId, some saveRes.messageId⟩ fCid2 fTid2 fUid now2 =
      .ok prep)
    (hcid : resolveId conversationRef.conversationId fCid ≠ "")
    (hImgNe : fImg ≠ "") (hUidNe : fUid ≠ "") (hIU : fImg ≠ fUid)
    (hfreshImg : ∀ m ∈ (getConversation store conversationRef fCid fTid
      now).conversation.messages, m.id ≠ fImg)
    (hfreshUid : ∀ m ∈ (getConversation store conversationRef fCid fTid
      now).conversation.messages, m.id ≠ fUid)
    (hchain : ChainTo
      ((getConversation store conversationRef fCid fTid now).conversation.messages ++
        [{ id := fImg,
           parentMessageId :=
             (getConversation store conversationRef fCid fTid now).tailMessageId,
           role := "user", message := "", image := some imageUrl },
         { id := fUid, parentMessageId := fImg, role := "user", message := text,
           image := none }])
      (getConversation store conversationRef fCid fTid now).tailMessageId rest) :
    ∃ ps, prep.requestMessages.getLast? =
        some { role := "user",
               content := .parts (ps ++ [.imageUrl imageUrl "auto", .text text]) } := by
  set r := getConversation store conversationRef fCid fTid now with hrdef
  simp only [saveImage] at hsave
  rw [← hrdef] at hsave
  injection hsave with h1 h2
  subst h1
  have hc1 : saveRes.conversationId = r.conversationId := by rw [← h2]
  have hc2 : saveRes.messageId = fImg := by rw [← h2]
  rw [hc1, hc2] at hprep
  obtain ⟨constrained, hci, hprepEq⟩ :=
    prepareRequest_ok enc options _ text _ fCid2 fTid2 fUid now2 prep hprep
  have hcid2 : r.conversationId ≠ "" := by
    rw [hrdef, (getConversation_fields store conversationRef fCid fTid now).1]
    exact hcid
  have hr2 : getConversation
      (storeSet store r.conversationId
        { messages := r.conversation.messages ++
            [{ id := fImg, parentMessageId := r.tailMessageId, role := "user",
               message := "", image := some imageUrl }],
          createdAt := r.conversation.createdAt })
      ⟨some r.conversationId, some fImg⟩ fCid2 fTid2 now2 =
      { conversationId := r.conversationId,
        conversation :=
          { messages := r.conversation.messages ++
              [{ id := fImg, parentMessageId := r.tailMessageId, role := "user",
                 message := "", image := some imageUrl }],
            createdAt := r.conversation.createdAt },
        isNewConversation := false, tailMessageId := fImg } := by
    have e1 : resolveId (some r.conversationId) fCid2 = r.conversationId := by
      simp [resolveId, hcid2]
    unfold getConversation
    simp only [e1]
    have e2 : resolveId (some fImg) fTid2 = fImg := by
      simp [resolveId, hImgNe]
    simp only [e2, storeGet_set]
  simp only [hr2] at hci hprepEq
  simp only [List.append_assoc, List.singleton_append] at hci
  have hlook1 : lookupMessage (r.conversation.messages ++
      [{ id := fImg, parentMessageId := r.tailMessageId, role := "user",
         message := "", image := some imageUrl },
       { id := fUid, parentMessageId := fImg, role := "user", message := text,
         image := none }]) fImg =
      some { id := fImg, parentMessageId := r.tailMessageId, role := "user",
             message := "", image := some imageUrl } := by
    rw [lookupMessage_append_fresh r.conversation.messages _ fImg hfreshImg]
    simp [lookupMessage, List.find?_cons]
  have hlook2 : lookupMessage (r.conversation.messages ++
      [{ id := fImg, parentMessageId := r.tailMessageId, role := "user",
         message := "", image := some imageUrl },
       { id := fUid, parentMessageId := fImg, role := "user", message := text,
         image := none }]) fUid =
      some { id := fUid, parentMessageId := fImg, role := "user", message := text,
             image := none } := by
    rw [lookupMessage_append_fresh r.conversation.messages _ fUid hfreshUid]
    have hb : (fImg == fUid) = false := beq_eq_false_iff_ne.mpr hIU
    simp [lookupMessage, List.find?_cons, hb]
  have hchain2 := ChainTo.step fImg
    { id := fImg, parentMessageId := r.tailMessageId, role := "user",
      message := "", image := some imageUrl } rest hImgNe hlook1 hchain
  have hchain3 := ChainTo.step fUid
    { id := fUid, parentMessageId := fImg, role := "user", message := text,
      image := none } _ hUidNe hlook2 hchain2
  have hgml := getMessageList_of_chainTo hchain3
  rw [hgml] at hci
  simp only [List.append_assoc, List.singleton_append] at hci
  obtain ⟨ps0, hlastOai, hOaiNe⟩ := toOaiHistory_image_text rest
    { id := fImg, parentMessageId := r.tailMessageId, role := "user",
      message := "", image := some imageUrl }
    { id := fUid, parentMessageId := fImg, role := "user", message := text,
      image := none } imageUrl rfl rfl rfl rfl
  obtain ⟨hcne, hclast⟩ :=
    constraintInput_ok_getLast enc _ constrained options.maxInputTokens hOaiNe hci
  subst hprepEq
  refine ⟨ps0, ?_⟩
  show (match options.systemMessage with
        | some sys =>
          if sys = "" then constrained
          else { role := "system", content := OaiContent.str sys } :: constrained
        | none => constrained).getLast? = _
  cases hsys : options.systemMessage with
  | none =>
    show constrained.getLast? = _
    rw [hclast, hlastOai]
  | some sys =>
    show (if sys = "" then constrained
          else ({ role := "system", content := OaiContent.str sys } : OaiMessage) ::
            constrained).getLast? = _
    by_cases hs : sys = ""
    · rw [if_pos hs, hclast, hlastOai]
    · rw [if_neg hs,
        show (({ role := "system", content := OaiContent.str sys } : OaiMessage) ::
            constrained) =
          [({ role := "system", content := OaiContent.str sys } : OaiMessage)] ++
            constrained from rfl,
        List.getLast?_append_of_ne_nil _ hcne, hclast, hlastOai]

/-- The conversation persisted by the witness `saveImage` call. -/
def sampleImageConv : Conversation where
  messages :=
    [{ id := "i", parentMessageId := "t", role := "user", message := "",
       image := some "http://x" }]
  createdAt := 0

/-- The store after the witness `saveImage` call. -/
def sampleImageStore : Store := [("c", sampleImageConv)]

/-- The prepared request of the witness `sendMessage` call. -/
def sampleImagePrep : PreparedRequest where
  requestMessages :=
    [{ role := "user",
       content := OaiContent.parts
         [OaiPart.imageUrl "http://x" "auto", OaiPart.text "hello"] }]
  isNewConversation := false
  userMessage :=
    { id := "u", parentMessageId := "i", role := "user", message := "hello",
      image := none }
  conversationId := "c"
  conversation :=
    { messages :=
        [{ id := "i", parentMessageId := "t", role := "user", message := "",
           image := some "http://x" },
         { id := "u", parentMessageId := "i", role := "user", message := "hello",
           image := none }],
      createdAt := 0 }

/-- Witness for C5: on the empty store, saving image `http://x` and sending
`hello` with the returned ref builds a request whose only message is a single
user turn `[image part, text part]`. -/
theorem saveImage_then_sendMessage_single_user_turn_witness :
    ∃ ps, sampleImagePrep.requestMessages.getLast? =
        some { role := "user",
               content := .parts (ps ++ [.imageUrl "http://x" "auto", .text "hello"]) } :=
  saveImage_then_sendMessage_single_user_turn lenEnc {} [] "http://x" "hello"
    ⟨none, none⟩ "c" "t" "i" "c2" "t2" "u" 0 1
    sampleImageStore ⟨"c", "i"⟩ sampleImagePrep
    [] (by rfl) (by rfl) (by decide) (by decide) (by decide) (by decide)
    (by intro m hm; simp [getConversation, storeGet, resolveId] at hm)
    (by intro m hm; simp [getConversation, storeGet, resolveId] at hm)
    (ChainTo.stopMissing _ (by rfl))

/-! ## Storage-key resolution (CommandHandler: `getStorageKey`,
`getThreadRootEventId`) -/

/-- `IEventRelation`: both fields optional. -/
structure EventRelation where
  rel_type : Option String := none
  event_id : Option String := none
deriving Repr, DecidableEq

/-- The part of an inbound message event the key resolution reads: its id and
its `m.relates_to` relation. -/
structure MessageEventData where
  eventId : String
  relatesTo : Option EventRelation := none
deriving Repr, DecidableEq

/-- `isThread(relatesTo)`: the relation exists and is of type `m.thread`. -/
def isThread (relatesTo : Option EventRelation) : Bool :=
  match relatesTo with
  | some r => r.rel_type == some "m.thread"
  | none => false

/-- `getThreadRootEventId(relatesTo)`: the relation's `event_id` when it is a
thread relation, else nothing. -/
def getThreadRootEventId (relatesTo : Option EventRelation) : Option String :=
  if isThread relatesTo then relatesTo.bind (fun r => r.event_id) else none

/-- `CommandHandler.getRootEventId(event)`: thread root, falling back to the
event's own id. -/
def getRootEventId (event : MessageEventData) : String :=
  (getThreadRootEventId event.relatesTo).getD event.eventId

/-- `CommandHandler.getStorageKey(event, roomId)`.  `chatgptContext` is the
configured `CHATGPT_CONTEXT` string; any value other than `"room"` and
`"thread"` takes the `both` branch, exactly as the code's if/else chain. -/
def getStorageKey (chatgptContext : String) (event : MessageEventData)
    (roomId : String) : String :=
  let rootEventId := getRootEventId event
  if chatgptContext = "room" then roomId
  else if chatgptContext = "thread" then rootEventId
  else if rootEventId ≠ event.eventId then rootEventId else roomId

/-- Counterexample to claim C8 as stated: an event carrying a thread relation
whose root id equals the event's own id is inside a thread (`isThread` holds
and a thread-root id is present), yet in `both` mode the storage key is the
room id, not the thread-root event id. -/
theorem getStorageKey_both_self_root_counterexample :
    isThread (some { rel_type := some "m.thread", event_id := some "e1" }) = true ∧
    getThreadRootEventId
        (some { rel_type := some "m.thread", event_id := some "e1" }) = some "e1" ∧
    getStorageKey "both"
        { eventId := "e1",
          relatesTo := some { rel_type := some "m.thread", event_id := some "e1" } }
        "room1" = "room1" ∧
    ("room1" : String) ≠ "e1" :=
  ⟨rfl, rfl, rfl, by decide⟩

/-- Claim C8 (amended): the storage key is the room id in `room` mode; in
`thread` mode it is the thread-root event id carried by the thread relation,
falling back to the event's own id when none is present (in particular when
the event is not in a thread); in `both` mode it is the thread-root event id
whenever one is present and differs from the event's own id, and the room id
otherwise.  (The differs-from-own-id proviso is forced by
`getStorageKey_both_self_root_counterexample`.) -/
theorem getStorageKey_resolution_amended (event : MessageEventData)
    (roomId rid : String) :
    getStorageKey "room" event roomId = roomId ∧
    (getThreadRootEventId event.relatesTo = some rid →
      getStorageKey "thread" event roomId = rid) ∧
    (getThreadRootEventId event.relatesTo = none →
      getStorageKey "thread" event roomId = event.eventId) ∧
    (getThreadRootEventId event.relatesTo = some rid → rid ≠ event.eventId →
      getStorageKey "both" event roomId = rid) ∧
    (getThreadRootEventId event.relatesTo = none →
      getStorageKey "both" event roomId = roomId) ∧
    (getThreadRootEventId event.relatesTo = some event.eventId →
      getStorageKey "both" event roomId = roomId) := by
  refine ⟨rfl, ?_, ?_, ?_, ?_, ?_⟩
  · intro h
    show (getThreadRootEventId event.relatesTo).getD event.eventId = rid
    rw [h]
    rfl
  · intro h
    show (getThreadRootEventId event.relatesTo).getD event.eventId = event.eventId
    rw [h]
    rfl
  · intro h hne
    show (if (getThreadRootEventId event.relatesTo).getD event.eventId ≠ event.eventId
          then (getThreadRootEventId event.relatesTo).getD event.eventId
          else roomId) = rid
    rw [h]
    simp [hne]
  · intro h
    show (if (getThreadRootEventId event.relatesTo).getD event.eventId ≠ event.eventId
          then (getThreadRootEventId event.relatesTo).getD event.eventId
          else roomId) = roomId
    rw [h]
    simp
  · intro h
    show (if (getThreadRootEventId event.relatesTo).getD event.eventId ≠ event.eventId
          then (getThreadRootEventId event.relatesTo).getD event.eventId
          else roomId) = roomId
    rw [h]
    simp

/-- Witness for the amended C8 at concrete events: a proper thread reply
keys by its root in `thread` and `both` modes; an event outside any thread
keys by the room in `both` mode. -/
theorem getStorageKey_resolution_amended_witness :
    getStorageKey "thread"
        { eventId := "e2",
          relatesTo := some { rel_type := some "m.thread", event_id := some "root" } }
        "room1" = "root" ∧
    getStorageKey "both"
        { eventId := "e2",
          relatesTo := some { rel_type := some "m.thread", event_id := some "root" } }
        "room1" = "root" ∧
    getStorageKey "both" { eventId := "e3", relatesTo := none } "room1" = "room1" := by
  refine ⟨?_, ?_, ?_⟩
  · exact (getStorageKey_resolution_amended
      { eventId := "e2",
        relatesTo := some { rel_type := some "m.thread", event_id := some "root" } }
      "room1" "root").2.1 rfl
  · exact (getStorageKey_resolution_amended
      { eventId := "e2",
        relatesTo := some { rel_type := some "m.thread", event_id := some "root" } }
      "room1" "root").2.2.2.1 rfl (by decide)
  · exact (getStorageKey_resolution_amended
      { eventId := "e3", relatesTo := none } "room1" "x").2.2.2.2.1 rfl
